import Mathlib

/-!
Verification of the Flashclose utility (`run.py`) against its specification.

The development shallowly embeds the two cores of the program:

* `retry_async` — the retry-with-exponential-backoff decorator (lines 20-37 of
  `run.py`).  A remote operation is modelled as a function from the attempt
  index to an `Except Exc` outcome; the wrapper's result records how many times
  the operation was invoked, which sleeps were performed, and the final
  fatal-wrapped outcome.  Machine sleeping is modelled by recording the slept
  durations.
* the `BitgetExchange` methods and the `main` orchestrator, modelled as pure
  functions over an explicit environment of remote outcomes, producing a trace
  of remote calls and printed reports.
-/

/-- A Python exception as seen by the retry wrapper: whether it is an instance
of `ccxt.RateLimitExceeded`, and its string rendering. -/
structure Exc where
  isRateLimitExceeded : Bool
  msg : String
deriving DecidableEq

/-- Line 29 of `run.py`:
`is_rate_limit = isinstance(e, ccxt.RateLimitExceeded) or str(e).startswith('\x7b"code":"429"')`. -/
def excIsRateLimit (e : Exc) : Bool :=
  e.isRateLimitExceeded || e.msg.startsWith "\x7b\"code\":\"429\""

/-- Result of running the wrapper produced by `retry_async`: how many times the
wrapped function was invoked, the list of performed backoff sleeps (in order,
in time units), and the outcome.  `Except.error` is the wrapper's re-raised
`Exception("BitgetExchange operation failed: ...")`; `Except.ok none` is the
implicit `None` returned when the `for` loop runs zero iterations. -/
structure RetryResult (α : Type) where
  attempts : Nat
  sleeps : List Nat
  outcome : Except String (Option α)

/-- The loop body of `retry_async.wrapper` (lines 25-35 of `run.py`), with the
remaining loop iterations as structural fuel.  `op i` is the outcome of the
wrapped function on attempt index `i`. -/
def retryAux {α : Type} (D N : Nat) (op : Nat → Except Exc α) : Nat → Nat → RetryResult α
  | _, 0 => ⟨0, [], Except.ok none⟩
  | attempt, fuel + 1 =>
    match op attempt with
    | Except.ok v => ⟨1, [], Except.ok (some v)⟩
    | Except.error e =>
      if excIsRateLimit e = true ∧ attempt < N - 1 then
        let r := retryAux D N op (attempt + 1) fuel
        ⟨r.attempts + 1, D * 2 ^ attempt :: r.sleeps, r.outcome⟩
      else
        ⟨1, [], Except.error ("BitgetExchange operation failed: " ++ e.msg)⟩

/-- `retry_async` (lines 20-37 of `run.py`) with the configuration
`BASE_DELAY = D`, `MAX_RETRIES = N`: run `for attempt in range(N)`. -/
def retry_async {α : Type} (D N : Nat) (op : Nat → Except Exc α) : RetryResult α :=
  retryAux D N op 0 N

/-- Line 17 of `run.py`. -/
def MAX_RETRIES : Nat := 5

/-- Line 18 of `run.py`. -/
def BASE_DELAY : Nat := 1

theorem retryAux_succ {α : Type} (D N : Nat) (op : Nat → Except Exc α)
    (attempt fuel : Nat) :
    retryAux D N op attempt (fuel + 1) =
      (match op attempt with
       | Except.ok v => ⟨1, [], Except.ok (some v)⟩
       | Except.error e =>
         if excIsRateLimit e = true ∧ attempt < N - 1 then
           ⟨(retryAux D N op (attempt + 1) fuel).attempts + 1,
            D * 2 ^ attempt :: (retryAux D N op (attempt + 1) fuel).sleeps,
            (retryAux D N op (attempt + 1) fuel).outcome⟩
         else
           ⟨1, [], Except.error ("BitgetExchange operation failed: " ++ e.msg)⟩) := rfl

theorem retryAux_succ_ok {α : Type} (D N : Nat) (op : Nat → Except Exc α)
    (attempt fuel : Nat) (v : α) (hop : op attempt = Except.ok v) :
    retryAux D N op attempt (fuel + 1) = ⟨1, [], Except.ok (some v)⟩ := by
  rw [retryAux_succ, hop]

theorem retryAux_succ_retry {α : Type} (D N : Nat) (op : Nat → Except Exc α)
    (attempt fuel : Nat) (e : Exc) (hop : op attempt = Except.error e)
    (hrl : excIsRateLimit e = true) (hlt : attempt < N - 1) :
    retryAux D N op attempt (fuel + 1) =
      ⟨(retryAux D N op (attempt + 1) fuel).attempts + 1,
       D * 2 ^ attempt :: (retryAux D N op (attempt + 1) fuel).sleeps,
       (retryAux D N op (attempt + 1) fuel).outcome⟩ := by
  rw [retryAux_succ, hop]
  exact if_pos ⟨hrl, hlt⟩

theorem retryAux_succ_fatal {α : Type} (D N : Nat) (op : Nat → Except Exc α)
    (attempt fuel : Nat) (e : Exc) (hop : op attempt = Except.error e)
    (hcond : ¬ (excIsRateLimit e = true ∧ attempt < N - 1)) :
    retryAux D N op attempt (fuel + 1) =
      ⟨1, [], Except.error ("BitgetExchange operation failed: " ++ e.msg)⟩ := by
  rw [retryAux_succ, hop]
  exact if_neg hcond

theorem retryAux_skip {α : Type} (D N : Nat) (op : Nat → Except Exc α) (e : Exc)
    (hrl : excIsRateLimit e = true) :
    ∀ (k attempt fuel : Nat), attempt + fuel = N → k < fuel →
      (∀ i, attempt ≤ i → i < attempt + k → op i = Except.error e) →
      retryAux D N op attempt fuel =
        ⟨(retryAux D N op (attempt + k) (fuel - k)).attempts + k,
         (List.range k).map (fun j => D * 2 ^ (attempt + j)) ++
           (retryAux D N op (attempt + k) (fuel - k)).sleeps,
         (retryAux D N op (attempt + k) (fuel - k)).outcome⟩ := by
  intro k
  induction k with
  | zero => intro attempt fuel _ _ _; simp
  | succ k ih =>
    intro attempt fuel hN hk hop
    rw [ih attempt fuel hN (by omega) (fun i h1 h2 => hop i h1 (by omega))]
    have hopk : op (attempt + k) = Except.error e :=
      hop (attempt + k) (by omega) (by omega)
    obtain ⟨f, hf⟩ : ∃ f, fuel - k = f + 1 := ⟨fuel - (k + 1), by omega⟩
    have hf2 : f = fuel - (k + 1) := by omega
    rw [hf, retryAux_succ_retry D N op (attempt + k) f e hopk hrl (by omega), hf2]
    have hidx : attempt + (k + 1) = attempt + k + 1 := by omega
    rw [hidx]
    simp only [RetryResult.mk.injEq]
    refine ⟨by omega, ?_, trivial⟩
    rw [List.range_succ, List.map_append, List.append_assoc]
    rfl

theorem retry_skip {α : Type} (D N k : Nat) (op : Nat → Except Exc α) (e : Exc)
    (hrl : excIsRateLimit e = true) (hk : k < N)
    (hop : ∀ i, i < k → op i = Except.error e) :
    retry_async D N op =
      ⟨(retryAux D N op k (N - k)).attempts + k,
       (List.range k).map (fun j => D * 2 ^ j) ++ (retryAux D N op k (N - k)).sleeps,
       (retryAux D N op k (N - k)).outcome⟩ := by
  have h := retryAux_skip D N op e hrl k 0 N (by omega) hk
    (fun i _ h2 => hop i (by omega))
  rw [retry_async, h]
  simp

/-- Claim C1: for every configured max-attempt value `N ≥ 1` and base delay
`D`, a wrapped remote operation that signals a rate-limit condition on every
attempt is invoked exactly `N` times (never more), with backoff sleeps
`D·2^0, …, D·2^(N-2)` between attempts, and then surfaces the fatal-wrapped
`"BitgetExchange operation failed"` error. -/
theorem retry_exhausts_all_rate_limited {α : Type} (D N : Nat)
    (op : Nat → Except Exc α) (e : Exc) (hN : 1 ≤ N)
    (hop : ∀ i, op i = Except.error e) (hrl : excIsRateLimit e = true) :
    (retry_async D N op).attempts = N ∧
    (retry_async D N op).sleeps = (List.range (N - 1)).map (fun i => D * 2 ^ i) ∧
    (retry_async D N op).outcome =
      Except.error ("BitgetExchange operation failed: " ++ e.msg) := by
  have hs := retry_skip D N (N - 1) op e hrl (by omega) (fun i _ => hop i)
  have hfuel : N - (N - 1) = 0 + 1 := by omega
  rw [hfuel] at hs
  have hstep : retryAux D N op (N - 1) (0 + 1) =
      ⟨1, [], Except.error ("BitgetExchange operation failed: " ++ e.msg)⟩ :=
    retryAux_succ_fatal D N op (N - 1) 0 e (hop (N - 1)) (by omega)
  rw [hstep] at hs
  rw [hs]
  refine ⟨?_, ?_, rfl⟩
  · show 1 + (N - 1) = N
    omega
  · show (List.range (N - 1)).map (fun j => D * 2 ^ j) ++ [] =
      (List.range (N - 1)).map (fun i => D * 2 ^ i)
    simp

/-- Concrete rate-limit exception used in witnesses. -/
def rlExc : Exc := ⟨true, "rate limit"⟩

/-- Concrete non-rate-limit exception used in witnesses. -/
def fatalExc : Exc := ⟨false, "boom"⟩

/-- Operation that signals a rate-limit condition on every attempt. -/
def opAllRL : Nat → Except Exc Unit := fun _ => Except.error rlExc

theorem retry_exhausts_all_rate_limited_witness :
    (retry_async BASE_DELAY MAX_RETRIES opAllRL).attempts = 5 ∧
    (retry_async BASE_DELAY MAX_RETRIES opAllRL).sleeps = [1, 2, 4, 8] ∧
    (retry_async BASE_DELAY MAX_RETRIES opAllRL).outcome =
      Except.error "BitgetExchange operation failed: rate limit" :=
  retry_exhausts_all_rate_limited BASE_DELAY MAX_RETRIES opAllRL rlExc
    (by decide) (fun _ => rfl) rfl

/-- Claim C8: a wrapped remote operation that fails with a non-rate-limit
error on the first attempt is never retried: it is invoked exactly once, with
no sleep, and surfaces immediately as the single fatal-wrapped error kind
carrying the original error's description. -/
theorem retry_fatal_non_rate_limit {α : Type} (D N : Nat)
    (op : Nat → Except Exc α) (e : Exc) (hN : 1 ≤ N)
    (hop : op 0 = Except.error e) (hrl : excIsRateLimit e = false) :
    (retry_async D N op).attempts = 1 ∧
    (retry_async D N op).sleeps = [] ∧
    (retry_async D N op).outcome =
      Except.error ("BitgetExchange operation failed: " ++ e.msg) := by
  cases N with
  | zero => omega
  | succ n =>
    rw [retry_async]
    have hcond : ¬ (excIsRateLimit e = true ∧ 0 < n + 1 - 1) := by
      intro h
      rw [hrl] at h
      exact Bool.false_ne_true h.1
    rw [retryAux_succ_fatal D (n + 1) op 0 n e hop hcond]
    exact ⟨rfl, rfl, rfl⟩

/-- Operation that fails with a non-rate-limit error on every attempt. -/
def opFatal : Nat → Except Exc Unit := fun _ => Except.error fatalExc

theorem retry_fatal_non_rate_limit_witness :
    (retry_async BASE_DELAY MAX_RETRIES opFatal).attempts = 1 ∧
    (retry_async BASE_DELAY MAX_RETRIES opFatal).sleeps = [] ∧
    (retry_async BASE_DELAY MAX_RETRIES opFatal).outcome =
      Except.error "BitgetExchange operation failed: boom" :=
  retry_fatal_non_rate_limit BASE_DELAY MAX_RETRIES opFatal fatalExc
    (by decide) rfl (by decide)

theorem backoff_sum_add (D k : Nat) :
    ((List.range k).map (fun j => D * 2 ^ j)).sum + D = D * 2 ^ k := by
  induction k with
  | zero => simp
  | succ k ih =>
    rw [List.range_succ, List.map_append, List.sum_append]
    have h1 : (((List.range k).map (fun j => D * 2 ^ j)).sum +
        ([k].map (fun j => D * 2 ^ j)).sum) + D =
        (((List.range k).map (fun j => D * 2 ^ j)).sum + D) + D * 2 ^ k := by
      simp
      ring
    rw [h1, ih]
    ring

theorem backoff_sum (D k : Nat) :
    ((List.range k).map (fun j => D * 2 ^ j)).sum = D * (2 ^ k - 1) := by
  have h := backoff_sum_add D k
  have h1 : 1 ≤ 2 ^ k := Nat.one_le_two_pow
  obtain ⟨m, hm⟩ : ∃ m, 2 ^ k = m + 1 := ⟨2 ^ k - 1, by omega⟩
  rw [hm] at h ⊢
  have h2 : D * (m + 1) = D * m + D := by ring
  rw [h2] at h
  simpa using Nat.add_right_cancel h

/-- Claim C9: a wrapped remote operation that fails with a rate-limit
condition on attempts `1..k` (`k < N`) and then succeeds on attempt `k+1`
returns the operation's success value with no error, after exactly `k+1`
invocations and a cumulative slept delay of `D·(2^k − 1)` time units. -/
theorem retry_succeeds_after_rate_limits {α : Type} (D N k : Nat)
    (op : Nat → Except Exc α) (e : Exc) (v : α) (hk : k < N)
    (hop : ∀ i, i < k → op i = Except.error e) (hrl : excIsRateLimit e = true)
    (hv : op k = Except.ok v) :
    (retry_async D N op).outcome = Except.ok (some v) ∧
    (retry_async D N op).sleeps.sum = D * (2 ^ k - 1) ∧
    (retry_async D N op).attempts = k + 1 := by
  have hs := retry_skip D N k op e hrl hk hop
  obtain ⟨f, hf⟩ : ∃ f, N - k = f + 1 := ⟨N - k - 1, by omega⟩
  rw [hf] at hs
  have hstep : retryAux D N op k (f + 1) = ⟨1, [], Except.ok (some v)⟩ :=
    retryAux_succ_ok D N op k f v hv
  rw [hstep] at hs
  rw [hs]
  refine ⟨rfl, ?_, ?_⟩
  · show ((List.range k).map (fun j => D * 2 ^ j) ++ []).sum = D * (2 ^ k - 1)
    simp [backoff_sum]
  · show 1 + k = k + 1
    omega

/-- Operation that rate-limits on attempts with index `< 2`, then succeeds. -/
def opRLTwice : Nat → Except Exc Nat := fun i =>
  match i with
  | 0 => Except.error rlExc
  | 1 => Except.error rlExc
  | _ => Except.ok 42

theorem retry_succeeds_after_rate_limits_witness :
    (retry_async BASE_DELAY MAX_RETRIES opRLTwice).outcome = Except.ok (some 42) ∧
    (retry_async BASE_DELAY MAX_RETRIES opRLTwice).sleeps.sum = 3 ∧
    (retry_async BASE_DELAY MAX_RETRIES opRLTwice).attempts = 3 :=
  retry_succeeds_after_rate_limits BASE_DELAY MAX_RETRIES 2 opRLTwice rlExc 42
    (by decide)
    (by
      intro i hi
      interval_cases i <;> rfl)
    rfl rfl

theorem retryAux_attempts_pos {α : Type} (D N : Nat) (op : Nat → Except Exc α)
    (attempt fuel : Nat) (hf : 1 ≤ fuel) :
    1 ≤ (retryAux D N op attempt fuel).attempts := by
  obtain ⟨f, hfe⟩ : ∃ f, fuel = f + 1 := ⟨fuel - 1, by omega⟩
  subst hfe
  rw [retryAux_succ]
  cases op attempt with
  | ok v => simp
  | error e =>
    by_cases h : excIsRateLimit e = true ∧ attempt < N - 1
    · simp [h]
    · simp [h]

/-- The observable obligations of one round of the policy of section 4.1: the
wrapped operation reaches at least attempt `k+1`, and the first `k` sleeps are
the exponential-backoff delays `D·2^0, …, D·2^(k-1)`. -/
def BackoffBehavior {α : Type} (D N k : Nat) (res : RetryResult α) : Prop :=
  k + 1 ≤ res.attempts ∧
  res.sleeps.take k = (List.range k).map (fun j => D * 2 ^ j)

theorem retry_backoff_take {α : Type} (D N k : Nat) (op : Nat → Except Exc α)
    (e : Exc) (hrl : excIsRateLimit e = true) (hk : k < N)
    (hop : ∀ i, i < k → op i = Except.error e) :
    BackoffBehavior D N k (retry_async D N op) := by
  have hs := retry_skip D N k op e hrl hk hop
  rw [BackoffBehavior, hs]
  constructor
  · have hpos : 1 ≤ (retryAux D N op k (N - k)).attempts :=
      retryAux_attempts_pos D N op k (N - k) (by omega)
    show k + 1 ≤ (retryAux D N op k (N - k)).attempts + k
    omega
  · show ((List.range k).map (fun j => D * 2 ^ j) ++
      (retryAux D N op k (N - k)).sleeps).take k = _
    exact List.take_left' (by simp)

/-- A position as returned by `fetch_positions` (the fields `main` and the
open-position filter read: lines 73-76 and 208-218 of `run.py`).  `contracts`
is `None` or a numeric amount. -/
structure Position where
  symbol : String
  side : String
  contracts : Option Rat
deriving DecidableEq

/-- An order as returned by the pending-order queries (the fields read by
`main` and by the limit filter: `symbol`, `orderId`, `orderType`). -/
structure Order where
  symbol : String
  orderId : String
  orderType : Option String
deriving DecidableEq

/-- The `params` dict built by `fetch_open_trigger_orders` and
`fetch_open_tpsl_orders` (lines 88-93 and 105-110 of `run.py`). -/
structure PlanParams where
  productType : String
  planType : String
  symbol : Option String
deriving DecidableEq

/-- The `params` dict built by `fetch_open_limit_orders` (lines 122-127). -/
structure LimitParams where
  productType : String
  status : String
  symbol : Option String
deriving DecidableEq

/-- The `params` dict built by the two cancel methods (lines 148-153 and
158-163). -/
structure CancelParams where
  productType : String
  marginCoin : String
  symbol : String
  orderId : String
deriving DecidableEq

/-- Response shape of the plan-pending query as read by lines 97-101:
`data` is `none` when the `"data"` key is absent, and `entrustedList` is
`none` when that key is absent from `response["data"]`. -/
structure PlanData where
  entrustedList : Option (List Order)
deriving DecidableEq

structure PlanResponse where
  data : Option PlanData
deriving DecidableEq

/-- The `"entrustedList"` field of the pending-orders response as read by
lines 136-138: outer `none` = key absent (so `.get` yields the default `[]`),
`some none` = key present with a `null` value. -/
structure LimitData where
  entrustedList : Option (Option (List Order))
deriving DecidableEq

/-- Response of the pending-orders query as read by lines 130-140:
`isTruthy` is the Python truthiness of `response`; `data` is `none` when the
`"data"` key is absent and `some none` when it holds `null` (in which case the
chained `.get` raises and the `except` clause returns `[]`). -/
structure LimitResponse where
  isTruthy : Bool
  data : Option (Option LimitData)
deriving DecidableEq

/-- The raw remote endpoints used by the `BitgetExchange` methods (the
`self._exchange.…` calls), as per-attempt outcome functions: the last `Nat`
argument is the attempt index of the enclosing retry wrapper. -/
structure Remote where
  close : Nat → Except Exc Unit
  load_markets : Nat → Except Exc Unit
  fetch_positions : String → Nat → Except Exc (List Position)
  close_position : String → String → Nat → Except Exc Unit
  orders_plan_pending : PlanParams → Nat → Except Exc PlanResponse
  orders_pending : LimitParams → Nat → Except Exc LimitResponse
  cancel_plan_order : CancelParams → Nat → Except Exc Unit
  cancel_order : CancelParams → Nat → Except Exc Unit

/-- The state of a `BitgetExchange` instance relevant to the claims
(`__init__`, lines 41-51 of `run.py`). -/
structure BitgetExchange where
  product_type : String
  margin_coin : String

/-- `BitgetExchange.__init__`: `margin_coin` is `"USDT"` for the
`"USDT-FUTURES"` product type and `"USDC"` otherwise (line 43). -/
def BitgetExchange.init (product_type : String) : BitgetExchange :=
  ⟨product_type, if product_type = "USDT-FUTURES" then "USDT" else "USDC"⟩

/-- `_format_symbol` (lines 166-170): if the symbol contains `/`, drop any
`:`-suffix and remove the slashes; otherwise return it unchanged. -/
def BitgetExchange.format_symbol (symbol : String) : String :=
  if symbol.contains '/' then
    ((symbol.splitOn ":").headD "").replace "/" ""
  else symbol

/-- The `params` sent by `fetch_open_trigger_orders` (lines 88-93). -/
def trigger_fetch_params (ex : BitgetExchange) (symbol : Option String) : PlanParams :=
  ⟨ex.product_type, "normal_plan", symbol.map BitgetExchange.format_symbol⟩

/-- The `params` sent by `fetch_open_tpsl_orders` (lines 105-110). -/
def tpsl_fetch_params (ex : BitgetExchange) (symbol : Option String) : PlanParams :=
  ⟨ex.product_type, "profit_loss", symbol.map BitgetExchange.format_symbol⟩

/-- The `params` sent by `fetch_open_limit_orders` (lines 122-127). -/
def limit_fetch_params (ex : BitgetExchange) (symbol : Option String) : LimitParams :=
  ⟨ex.product_type, "live", symbol.map BitgetExchange.format_symbol⟩

/-- The `params` sent by `cancel_trigger_order` and `cancel_limit_order`
(lines 148-153 and 158-163; both build the same dict). -/
def cancel_params (ex : BitgetExchange) (symbol order_id : String) : CancelParams :=
  ⟨ex.product_type, ex.margin_coin, BitgetExchange.format_symbol symbol, order_id⟩

/-- Body of `close` (line 63). -/
def BitgetExchange.close_body (ex : BitgetExchange) (r : Remote) (i : Nat) :
    Except Exc Unit :=
  r.close i

/-- Body of `load_markets` (line 67; the assignment to `self.markets` is
state no claim reads). -/
def BitgetExchange.load_markets_body (ex : BitgetExchange) (r : Remote) (i : Nat) :
    Except Exc Unit :=
  r.load_markets i

/-- Body of `fetch_open_positions` (lines 70-77): fetch, then keep positions
whose `contracts` field is non-`None` and positive. -/
def BitgetExchange.fetch_open_positions_body (ex : BitgetExchange) (r : Remote)
    (i : Nat) : Except Exc (List Position) :=
  match r.fetch_positions ex.product_type i with
  | Except.error e => Except.error e
  | Except.ok positions =>
    Except.ok (positions.filter fun p =>
      match p.contracts with
      | some c => decide (0 < c)
      | none => false)

/-- Body of `flash_close_position` (lines 80-84); its `try/except` re-raises,
so it is transparent. -/
def BitgetExchange.flash_close_position_body (ex : BitgetExchange) (r : Remote)
    (symbol side : String) (i : Nat) : Except Exc Unit :=
  r.close_position symbol side i

/-- Lines 97-101 and 114-118: extract `response["data"]["entrustedList"]`
when both keys are present, else `[]`. -/
def planOrders (response : PlanResponse) : List Order :=
  match response.data with
  | some d =>
    match d.entrustedList with
    | some l => l
    | none => []
  | none => []

/-- Body of `fetch_open_trigger_orders` (lines 87-101). -/
def BitgetExchange.fetch_open_trigger_orders_body (ex : BitgetExchange) (r : Remote)
    (symbol : Option String) (i : Nat) : Except Exc (List Order) :=
  match r.orders_plan_pending (trigger_fetch_params ex symbol) i with
  | Except.error e => Except.error e
  | Except.ok response => Except.ok (planOrders response)

/-- Body of `fetch_open_tpsl_orders` (lines 104-118). -/
def BitgetExchange.fetch_open_tpsl_orders_body (ex : BitgetExchange) (r : Remote)
    (symbol : Option String) (i : Nat) : Except Exc (List Order) :=
  match r.orders_plan_pending (tpsl_fetch_params ex symbol) i with
  | Except.error e => Except.error e
  | Except.ok response => Except.ok (planOrders response)

/-- Body of `fetch_open_limit_orders` (lines 121-144): the whole body is in a
`try` whose `except` returns `[]`; a missing or malformed response shape also
yields `[]`; otherwise the entrusted list is filtered client-side to
`orderType == "limit"`. -/
def BitgetExchange.fetch_open_limit_orders_body (ex : BitgetExchange) (r : Remote)
    (symbol : Option String) (i : Nat) : Except Exc (List Order) :=
  match r.orders_pending (limit_fetch_params ex symbol) i with
  | Except.error _ => Except.ok []
  | Except.ok response =>
    match response.isTruthy, response.data with
    | false, _ => Except.ok []
    | true, none => Except.ok []
    | true, some none => Except.ok []
    | true, some (some d) =>
      match d.entrustedList with
      | none => Except.ok []
      | some none => Except.ok []
      | some (some l) => Except.ok (l.filter fun o => o.orderType == some "limit")

/-- Body of `cancel_trigger_order` (lines 147-154): posts to the trigger-plan
cancel endpoint `cancel_plan_order`. -/
def BitgetExchange.cancel_trigger_order_body (ex : BitgetExchange) (r : Remote)
    (symbol order_id : String) (i : Nat) : Except Exc Unit :=
  r.cancel_plan_order (cancel_params ex symbol order_id) i

/-- Body of `cancel_limit_order` (lines 157-164): posts to the plain order
cancel endpoint `cancel_order`. -/
def BitgetExchange.cancel_limit_order_body (ex : BitgetExchange) (r : Remote)
    (symbol order_id : String) (i : Nat) : Except Exc Unit :=
  r.cancel_order (cancel_params ex symbol order_id) i

/-- The `@retry_async`-decorated method `close` (lines 61-63). -/
def BitgetExchange.close (ex : BitgetExchange) (r : Remote) (D N : Nat) :
    RetryResult Unit :=
  retry_async D N (ex.close_body r)

/-- The `@retry_async`-decorated method `load_markets` (lines 65-67). -/
def BitgetExchange.load_markets (ex : BitgetExchange) (r : Remote) (D N : Nat) :
    RetryResult Unit :=
  retry_async D N (ex.load_markets_body r)

/-- The `@retry_async`-decorated method `fetch_open_positions` (lines 69-77). -/
def BitgetExchange.fetch_open_positions (ex : BitgetExchange) (r : Remote) (D N : Nat) :
    RetryResult (List Position) :=
  retry_async D N (ex.fetch_open_positions_body r)

/-- The `@retry_async`-decorated method `flash_close_position` (lines 79-84). -/
def BitgetExchange.flash_close_position (ex : BitgetExchange) (r : Remote)
    (symbol side : String) (D N : Nat) : RetryResult Unit :=
  retry_async D N (ex.flash_close_position_body r symbol side)

/-- The `@retry_async`-decorated method `fetch_open_trigger_orders`
(lines 86-101). -/
def BitgetExchange.fetch_open_trigger_orders (ex : BitgetExchange) (r : Remote)
    (symbol : Option String) (D N : Nat) : RetryResult (List Order) :=
  retry_async D N (ex.fetch_open_trigger_orders_body r symbol)

/-- The `@retry_async`-decorated method `fetch_open_tpsl_orders`
(lines 103-118). -/
def BitgetExchange.fetch_open_tpsl_orders (ex : BitgetExchange) (r : Remote)
    (symbol : Option String) (D N : Nat) : RetryResult (List Order) :=
  retry_async D N (ex.fetch_open_tpsl_orders_body r symbol)

/-- The `@retry_async`-decorated method `fetch_open_limit_orders`
(lines 120-144). -/
def BitgetExchange.fetch_open_limit_orders (ex : BitgetExchange) (r : Remote)
    (symbol : Option String) (D N : Nat) : RetryResult (List Order) :=
  retry_async D N (ex.fetch_open_limit_orders_body r symbol)

/-- The `@retry_async`-decorated method `cancel_trigger_order`
(lines 146-154). -/
def BitgetExchange.cancel_trigger_order (ex : BitgetExchange) (r : Remote)
    (symbol order_id : String) (D N : Nat) : RetryResult Unit :=
  retry_async D N (ex.cancel_trigger_order_body r symbol order_id)

/-- The `@retry_async`-decorated method `cancel_limit_order`
(lines 156-164). -/
def BitgetExchange.cancel_limit_order (ex : BitgetExchange) (r : Remote)
    (symbol order_id : String) (D N : Nat) : RetryResult Unit :=
  retry_async D N (ex.cancel_limit_order_body r symbol order_id)

/-- A `BitgetExchange` as constructed by `main` (line 197). -/
def exUSDT : BitgetExchange := BitgetExchange.init "USDT-FUTURES"

/-- Claim C4 counterexample: the trigger-order fetch sends the query filter
`planType = "normal_plan"` (line 90 of `run.py`), not `planType = "normal"`
as the claim states. -/
theorem trigger_plan_type_not_normal :
    (trigger_fetch_params exUSDT none).planType = "normal_plan" ∧
    (trigger_fetch_params exUSDT none).planType ≠ "normal" :=
  ⟨rfl, by decide⟩

/-- Claim C4 (amended): for every invocation of the trigger-order fetch, the
`planType` parameter sent to the remote pending-orders query equals
`"normal_plan"` (the Bitget v2 plan-type value for normal trigger orders). -/
theorem trigger_fetch_plan_type (ex : BitgetExchange) (symbol : Option String) :
    (trigger_fetch_params ex symbol).planType = "normal_plan" := rfl

/-- Claim C6: the limit-order fetch never raises — on an endpoint failure or
a response that is falsy or lacks the `"data"` field it returns an empty
list — and every order it does return satisfies `orderType == "limit"`. -/
theorem limit_fetch_defensive (ex : BitgetExchange) (r : Remote)
    (symbol : Option String) (i : Nat) :
    (∀ err, r.orders_pending (limit_fetch_params ex symbol) i = Except.error err →
      ex.fetch_open_limit_orders_body r symbol i = Except.ok []) ∧
    (∀ resp, r.orders_pending (limit_fetch_params ex symbol) i = Except.ok resp →
      resp.isTruthy = false ∨ resp.data = none →
      ex.fetch_open_limit_orders_body r symbol i = Except.ok []) ∧
    (∀ l, ex.fetch_open_limit_orders_body r symbol i = Except.ok l →
      ∀ o ∈ l, o.orderType = some "limit") ∧
    (∀ err, ex.fetch_open_limit_orders_body r symbol i ≠ Except.error err) := by
  have shape : ∃ l, ex.fetch_open_limit_orders_body r symbol i = Except.ok l ∧
      ∀ o ∈ l, o.orderType = some "limit" := by
    unfold BitgetExchange.fetch_open_limit_orders_body
    cases hr : r.orders_pending (limit_fetch_params ex symbol) i with
    | error e => exact ⟨[], rfl, by simp⟩
    | ok resp =>
      obtain ⟨t, d⟩ := resp
      cases t with
      | false => exact ⟨[], rfl, by simp⟩
      | true =>
        cases d with
        | none => exact ⟨[], rfl, by simp⟩
        | some d2 =>
          cases d2 with
          | none => exact ⟨[], rfl, by simp⟩
          | some dd =>
            obtain ⟨el⟩ := dd
            cases el with
            | none => exact ⟨[], rfl, by simp⟩
            | some el2 =>
              cases el2 with
              | none => exact ⟨[], rfl, by simp⟩
              | some l =>
                refine ⟨l.filter (fun o => o.orderType == some "limit"), rfl, ?_⟩
                intro o ho
                have := (List.mem_filter.mp ho).2
                exact eq_of_beq this
  obtain ⟨l0, hl0, hall⟩ := shape
  refine ⟨?_, ?_, ?_, ?_⟩
  · intro err h
    unfold BitgetExchange.fetch_open_limit_orders_body
    rw [h]
  · intro resp h hcase
    unfold BitgetExchange.fetch_open_limit_orders_body
    rw [h]
    obtain ⟨t, d⟩ := resp
    rcases hcase with ht | hd
    · simp only at ht
      subst ht
      rfl
    · simp only at hd
      subst hd
      cases t <;> rfl
  · intro l h o ho
    rw [hl0] at h
    injection h with h2
    subst h2
    exact hall o ho
  · intro err h
    rw [hl0] at h
    exact Except.noConfusion h

/-- Remote whose pending-orders endpoint raises but whose response to the
trigger/TP-SL plan query succeeds with nothing; used in witnesses. -/
def remoteNoData : Remote :=
  ⟨fun _ => Except.ok (), fun _ => Except.ok (), fun _ _ => Except.ok [],
   fun _ _ _ => Except.ok (),
   fun _ _ => Except.ok ⟨none⟩,
   fun _ _ => Except.ok ⟨true, none⟩,
   fun _ _ => Except.ok (), fun _ _ => Except.ok ()⟩

theorem limit_fetch_defensive_witness :
    exUSDT.fetch_open_limit_orders_body remoteNoData none 0 = Except.ok [] :=
  (limit_fetch_defensive exUSDT remoteNoData none 0).2.1 ⟨true, none⟩ rfl (Or.inr rfl)

/-- Remote on which every endpoint raises a rate-limit error on every
attempt. -/
def remoteRL : Remote :=
  ⟨fun _ => Except.error rlExc, fun _ => Except.error rlExc,
   fun _ _ => Except.error rlExc, fun _ _ _ => Except.error rlExc,
   fun _ _ => Except.error rlExc, fun _ _ => Except.error rlExc,
   fun _ _ => Except.error rlExc, fun _ _ => Except.error rlExc⟩

/-- Claim C5 counterexample: although the pending-orders endpoint signals a
rate-limit condition on the first attempt (below the max), the limit-order
fetch performs no backoff and no retry: its internal catch-all turns the
rate-limit failure into an empty success on attempt 1, so the policy of
section 4.1 is *not* applied to it. -/
theorem limit_fetch_no_backoff :
    remoteRL.orders_pending (limit_fetch_params exUSDT none) 0 = Except.error rlExc ∧
    excIsRateLimit rlExc = true ∧
    (1 : Nat) < 5 ∧
    ¬ BackoffBehavior 1 5 1 (exUSDT.fetch_open_limit_orders remoteRL none 1 5) ∧
    (exUSDT.fetch_open_limit_orders remoteRL none 1 5).attempts = 1 ∧
    (exUSDT.fetch_open_limit_orders remoteRL none 1 5).sleeps = [] ∧
    (exUSDT.fetch_open_limit_orders remoteRL none 1 5).outcome = Except.ok (some []) := by
  refine ⟨rfl, rfl, by omega, ?_, rfl, rfl, rfl⟩
  intro hb
  have h1 : (exUSDT.fetch_open_limit_orders remoteRL none 1 5).attempts = 1 := rfl
  have h2 := hb.1
  omega

/-- Claim C5 (amended): the retry-with-backoff policy applies uniformly to
session close, market-metadata load, position fetch, the trigger and TP/SL
order fetches, both order cancels, and position close: for each of these, a
rate-limit failure of its underlying endpoint on attempts below the max
triggers the backoff-and-retry behaviour of section 4.1.  (The limit-order
fetch is the exception: its internal catch-all swallows every failure,
including rate-limit, before the wrapper can see it.) -/
theorem uniform_retry_policy (ex : BitgetExchange) (r : Remote) (D N k : Nat)
    (e : Exc) (sym side oid : String) (osym : Option String)
    (hrl : excIsRateLimit e = true) (hk : k < N) :
    ((∀ i, i < k → r.close i = Except.error e) →
      BackoffBehavior D N k (ex.close r D N)) ∧
    ((∀ i, i < k → r.load_markets i = Except.error e) →
      BackoffBehavior D N k (ex.load_markets r D N)) ∧
    ((∀ i, i < k → r.fetch_positions ex.product_type i = Except.error e) →
      BackoffBehavior D N k (ex.fetch_open_positions r D N)) ∧
    ((∀ i, i < k → r.close_position sym side i = Except.error e) →
      BackoffBehavior D N k (ex.flash_close_position r sym side D N)) ∧
    ((∀ i, i < k → r.orders_plan_pending (trigger_fetch_params ex osym) i = Except.error e) →
      BackoffBehavior D N k (ex.fetch_open_trigger_orders r osym D N)) ∧
    ((∀ i, i < k → r.orders_plan_pending (tpsl_fetch_params ex osym) i = Except.error e) →
      BackoffBehavior D N k (ex.fetch_open_tpsl_orders r osym D N)) ∧
    ((∀ i, i < k → r.cancel_plan_order (cancel_params ex sym oid) i = Except.error e) →
      BackoffBehavior D N k (ex.cancel_trigger_order r sym oid D N)) ∧
    ((∀ i, i < k → r.cancel_order (cancel_params ex sym oid) i = Except.error e) →
      BackoffBehavior D N k (ex.cancel_limit_order r sym oid D N)) := by
  refine ⟨?_, ?_, ?_, ?_, ?_, ?_, ?_, ?_⟩
  · intro hop
    exact retry_backoff_take D N k _ e hrl hk
      (fun i hi => by simp [BitgetExchange.close_body, hop i hi])
  · intro hop
    exact retry_backoff_take D N k _ e hrl hk
      (fun i hi => by simp [BitgetExchange.load_markets_body, hop i hi])
  · intro hop
    exact retry_backoff_take D N k _ e hrl hk
      (fun i hi => by simp [BitgetExchange.fetch_open_positions_body, hop i hi])
  · intro hop
    exact retry_backoff_take D N k _ e hrl hk
      (fun i hi => by simp [BitgetExchange.flash_close_position_body, hop i hi])
  · intro hop
    exact retry_backoff_take D N k _ e hrl hk
      (fun i hi => by simp [BitgetExchange.fetch_open_trigger_orders_body, hop i hi])
  · intro hop
    exact retry_backoff_take D N k _ e hrl hk
      (fun i hi => by simp [BitgetExchange.fetch_open_tpsl_orders_body, hop i hi])
  · intro hop
    exact retry_backoff_take D N k _ e hrl hk
      (fun i hi => by simp [BitgetExchange.cancel_trigger_order_body, hop i hi])
  · intro hop
    exact retry_backoff_take D N k _ e hrl hk
      (fun i hi => by simp [BitgetExchange.cancel_limit_order_body, hop i hi])

theorem uniform_retry_policy_witness :
    BackoffBehavior 1 5 1 (exUSDT.close remoteRL 1 5) ∧
    BackoffBehavior 1 5 1 (exUSDT.load_markets remoteRL 1 5) ∧
    BackoffBehavior 1 5 1 (exUSDT.fetch_open_positions remoteRL 1 5) ∧
    BackoffBehavior 1 5 1 (exUSDT.flash_close_position remoteRL "BTCUSDT" "long" 1 5) ∧
    BackoffBehavior 1 5 1 (exUSDT.fetch_open_trigger_orders remoteRL none 1 5) ∧
    BackoffBehavior 1 5 1 (exUSDT.fetch_open_tpsl_orders remoteRL none 1 5) ∧
    BackoffBehavior 1 5 1 (exUSDT.cancel_trigger_order remoteRL "BTCUSDT" "1" 1 5) ∧
    BackoffBehavior 1 5 1 (exUSDT.cancel_limit_order remoteRL "BTCUSDT" "1" 1 5) := by
  have h := uniform_retry_policy exUSDT remoteRL 1 5 1 rlExc "BTCUSDT" "long" "1" none
    rfl (by omega)
  exact ⟨h.1 (fun i _ => rfl), h.2.1 (fun i _ => rfl), h.2.2.1 (fun i _ => rfl),
    h.2.2.2.1 (fun i _ => rfl), h.2.2.2.2.1 (fun i _ => rfl),
    h.2.2.2.2.2.1 (fun i _ => rfl), h.2.2.2.2.2.2.1 (fun i _ => rfl),
    h.2.2.2.2.2.2.2 (fun i _ => rfl)⟩

/-- Outcomes of the wrapped exchange calls as `main` observes them: each
field is the result of one `await exchange.…` call site, `Except.error m`
being the fatal-wrapped exception with message `m`.  The fetch outcomes are
indexed by the call-site occurrence (`0` = the stage fetch, `1` = the final
verification re-fetch); the per-item outcomes are keyed by the arguments
`main` passes. -/
structure Env where
  credentials : Except String Unit
  loadMarkets : Except String Unit
  closeSession : Except String Unit
  fetchPositions : Nat → Except String (List Position)
  closePosition : String → String → Except String Unit
  fetchTriggerOrders : Nat → Except String (List Order)
  fetchTpslOrders : Nat → Except String (List Order)
  fetchLimitOrders : Nat → Except String (List Order)
  cancelTriggerOrder : String → String → Except String Unit
  cancelLimitOrder : String → String → Except String Unit

/-- Observable events of a run of `main`: the wrapped remote operations it
invokes (`call…`, in order) and the reports it prints. -/
inductive Event where
  | callLoadMarkets
  | callFetchPositions
  | callClosePosition (symbol side : String)
  | callFetchTriggerOrders
  | callFetchTpslOrders
  | callFetchLimitOrders
  | callCancelTriggerOrder (symbol orderId : String)
  | callCancelLimitOrder (symbol orderId : String)
  | callCloseSession
  | printClosed (symbol side : String)
  | printCloseError (symbol msg : String)
  | printCanceledTrigger (orderId symbol : String)
  | printCancelTriggerError (orderId msg : String)
  | printCanceledTpsl (orderId symbol : String)
  | printCancelTpslError (orderId msg : String)
  | printCanceledLimit (orderId symbol : String)
  | printCancelLimitError (orderId msg : String)
  | printVerifying
  | warnPositionsOpen (positions : List Position)
  | allPositionsClosed
  | warnOrdersOpen (nTrigger nTpsl nLimit : Nat)
  | allOrdersCanceled
  | printTopError (msg : String)
  | printCompleted
deriving DecidableEq

/-- Whether an event is the invocation of a wrapped remote operation. -/
def Event.isRemoteCall : Event → Bool
  | .callLoadMarkets | .callFetchPositions | .callClosePosition _ _
  | .callFetchTriggerOrders | .callFetchTpslOrders | .callFetchLimitOrders
  | .callCancelTriggerOrder _ _ | .callCancelLimitOrder _ _
  | .callCloseSession => true
  | _ => false

/-- One iteration of the position-closing loop (lines 208-218 of `run.py`):
attempt the close; on success print the closed line, on failure print the
per-item error and continue. -/
def closeItem (env : Env) (p : Position) : List Event :=
  Event.callClosePosition p.symbol p.side ::
    match env.closePosition p.symbol p.side with
    | Except.ok _ => [Event.printClosed p.symbol p.side]
    | Except.error m => [Event.printCloseError p.symbol m]

/-- The whole position-closing loop, in list order. -/
def closeLoop (env : Env) (ps : List Position) : List Event :=
  (ps.map (closeItem env)).flatten

/-- One iteration of the trigger-order cancel loop (lines 229-237). -/
def triggerItem (env : Env) (o : Order) : List Event :=
  Event.callCancelTriggerOrder o.symbol o.orderId ::
    match env.cancelTriggerOrder o.symbol o.orderId with
    | Except.ok _ => [Event.printCanceledTrigger o.orderId o.symbol]
    | Except.error m => [Event.printCancelTriggerError o.orderId m]

def triggerLoop (env : Env) (os : List Order) : List Event :=
  (os.map (triggerItem env)).flatten

/-- One iteration of the TP/SL cancel loop (lines 248-256): `main` calls
`exchange.cancel_trigger_order` for each TP/SL item. -/
def tpslItem (env : Env) (o : Order) : List Event :=
  Event.callCancelTriggerOrder o.symbol o.orderId ::
    match env.cancelTriggerOrder o.symbol o.orderId with
    | Except.ok _ => [Event.printCanceledTpsl o.orderId o.symbol]
    | Except.error m => [Event.printCancelTpslError o.orderId m]

def tpslLoop (env : Env) (os : List Order) : List Event :=
  (os.map (tpslItem env)).flatten

/-- One iteration of the limit-order cancel loop (lines 267-275). -/
def limitItem (env : Env) (o : Order) : List Event :=
  Event.callCancelLimitOrder o.symbol o.orderId ::
    match env.cancelLimitOrder o.symbol o.orderId with
    | Except.ok _ => [Event.printCanceledLimit o.orderId o.symbol]
    | Except.error m => [Event.printCancelLimitError o.orderId m]

def limitLoop (env : Env) (os : List Order) : List Event :=
  (os.map (limitItem env)).flatten

/-- Step 1 of the `async with` body (lines 200-218): fetch open positions,
then run the closing loop; a fetch failure escapes. -/
def stage2 (env : Env) : List Event × Option String :=
  match env.fetchPositions 0 with
  | Except.error m => ([Event.callFetchPositions], some m)
  | Except.ok ps => (Event.callFetchPositions :: closeLoop env ps, none)

/-- Step 2 of the body (lines 220-237): trigger orders. -/
def stage3 (env : Env) : List Event × Option String :=
  match env.fetchTriggerOrders 0 with
  | Except.error m => ([Event.callFetchTriggerOrders], some m)
  | Except.ok os => (Event.callFetchTriggerOrders :: triggerLoop env os, none)

/-- Step 3 of the body (lines 239-256): TP/SL orders. -/
def stage4 (env : Env) : List Event × Option String :=
  match env.fetchTpslOrders 0 with
  | Except.error m => ([Event.callFetchTpslOrders], some m)
  | Except.ok os => (Event.callFetchTpslOrders :: tpslLoop env os, none)

/-- Step 4 of the body (lines 258-275): limit orders. -/
def stage5 (env : Env) : List Event × Option String :=
  match env.fetchLimitOrders 0 with
  | Except.error m => ([Event.callFetchLimitOrders], some m)
  | Except.ok os => (Event.callFetchLimitOrders :: limitLoop env os, none)

/-- The final verification pass (lines 277-297): re-fetch all four classes
(any failure escapes), then report residual positions and orders. -/
def verifyStage (env : Env) : List Event × Option String :=
  match env.fetchPositions 1 with
  | Except.error m => ([Event.printVerifying, Event.callFetchPositions], some m)
  | Except.ok ps =>
    match env.fetchTriggerOrders 1 with
    | Except.error m =>
      ([Event.printVerifying, Event.callFetchPositions,
        Event.callFetchTriggerOrders], some m)
    | Except.ok ts =>
      match env.fetchTpslOrders 1 with
      | Except.error m =>
        ([Event.printVerifying, Event.callFetchPositions,
          Event.callFetchTriggerOrders, Event.callFetchTpslOrders], some m)
      | Except.ok os =>
        match env.fetchLimitOrders 1 with
        | Except.error m =>
          ([Event.printVerifying, Event.callFetchPositions,
            Event.callFetchTriggerOrders, Event.callFetchTpslOrders,
            Event.callFetchLimitOrders], some m)
        | Except.ok ls =>
          ([Event.printVerifying, Event.callFetchPositions,
            Event.callFetchTriggerOrders, Event.callFetchTpslOrders,
            Event.callFetchLimitOrders] ++
           (if ps.isEmpty then [Event.allPositionsClosed]
            else [Event.warnPositionsOpen ps]) ++
           (if ts.isEmpty && os.isEmpty && ls.isEmpty then [Event.allOrdersCanceled]
            else [Event.warnOrdersOpen ts.length os.length ls.length]), none)

/-- Sequential composition of stages: an escaping exception skips the rest of
the body. -/
def seqStages (a : List Event × Option String)
    (b : Unit → List Event × Option String) : List Event × Option String :=
  match a.2 with
  | some m => (a.1, some m)
  | none => (a.1 ++ (b ()).1, (b ()).2)

/-- The `async with` body of `main` (lines 199-297). -/
def runBody (env : Env) : List Event × Option String :=
  seqStages (stage2 env) (fun _ =>
    seqStages (stage3 env) (fun _ =>
      seqStages (stage4 env) (fun _ =>
        seqStages (stage5 env) (fun _ => verifyStage env))))

/-- The `async with BitgetExchange(...)` block (line 197): `__aenter__` runs
`load_markets`; if it raises, the body never starts and `__aexit__` — and
hence `close` — is *not* invoked (Python context-manager semantics).
Otherwise the body runs, `__aexit__` always invokes `close`, and the
escaping exception (the body's, or `close`'s own if it raises) propagates. -/
def runWith (env : Env) : List Event × Option String :=
  match env.loadMarkets with
  | Except.error m => ([Event.callLoadMarkets], some m)
  | Except.ok _ =>
    (Event.callLoadMarkets :: ((runBody env).1 ++ [Event.callCloseSession]),
     match env.closeSession with
     | Except.error m => some m
     | Except.ok _ => (runBody env).2)

/-- `main` (lines 189-302): credentials, the `async with` block, the outer
`except` printing `Error: …`, and the final completion print. -/
def mainRun (env : Env) : List Event :=
  match env.credentials with
  | Except.error m => [Event.printTopError m, Event.printCompleted]
  | Except.ok _ =>
    (runWith env).1 ++
      (match (runWith env).2 with
       | some m => [Event.printTopError m, Event.printCompleted]
       | none => [Event.printCompleted])

/-- Number of `callCloseSession` events in a trace. -/
def countClose : List Event → Nat
  | [] => 0
  | Event.callCloseSession :: tl => countClose tl + 1
  | _ :: tl => countClose tl

/-- The subtrace of wrapped remote-operation invocations. -/
def remoteCalls (tr : List Event) : List Event :=
  tr.filter Event.isRemoteCall

/-- The run printed a success or a per-item error line for position `p`. -/
def reportsOutcomeFor (tr : List Event) (p : Position) : Prop :=
  Event.printClosed p.symbol p.side ∈ tr ∨
    ∃ m, Event.printCloseError p.symbol m ∈ tr

theorem closeItem_events (env : Env) (p : Position) (ev : Event)
    (h : ev ∈ closeItem env p) :
    ev = Event.callClosePosition p.symbol p.side ∨
      ev = Event.printClosed p.symbol p.side ∨
      ∃ m, ev = Event.printCloseError p.symbol m := by
  unfold closeItem at h
  revert h
  cases env.closePosition p.symbol p.side with
  | ok u =>
    intro h
    rw [List.mem_cons, List.mem_singleton] at h
    exact h.imp id Or.inl
  | error m =>
    intro h
    rw [List.mem_cons, List.mem_singleton] at h
    exact h.imp id (fun h2 => Or.inr ⟨m, h2⟩)

theorem closeLoop_events (env : Env) (ps : List Position) (ev : Event)
    (h : ev ∈ closeLoop env ps) :
    ∃ p, p ∈ ps ∧ (ev = Event.callClosePosition p.symbol p.side ∨
      ev = Event.printClosed p.symbol p.side ∨
      ∃ m, ev = Event.printCloseError p.symbol m) := by
  unfold closeLoop at h
  rw [List.mem_flatten] at h
  obtain ⟨l, hl, hm⟩ := h
  rw [List.mem_map] at hl
  obtain ⟨p, hp, rfl⟩ := hl
  exact ⟨p, hp, closeItem_events env p ev hm⟩

theorem triggerItem_events (env : Env) (o : Order) (ev : Event)
    (h : ev ∈ triggerItem env o) :
    ev = Event.callCancelTriggerOrder o.symbol o.orderId ∨
      ev = Event.printCanceledTrigger o.orderId o.symbol ∨
      ∃ m, ev = Event.printCancelTriggerError o.orderId m := by
  unfold triggerItem at h
  revert h
  cases env.cancelTriggerOrder o.symbol o.orderId with
  | ok u =>
    intro h
    rw [List.mem_cons, List.mem_singleton] at h
    exact h.imp id Or.inl
  | error m =>
    intro h
    rw [List.mem_cons, List.mem_singleton] at h
    exact h.imp id (fun h2 => Or.inr ⟨m, h2⟩)

theorem triggerLoop_events (env : Env) (os : List Order) (ev : Event)
    (h : ev ∈ triggerLoop env os) :
    ∃ o, o ∈ os ∧ (ev = Event.callCancelTriggerOrder o.symbol o.orderId ∨
      ev = Event.printCanceledTrigger o.orderId o.symbol ∨
      ∃ m, ev = Event.printCancelTriggerError o.orderId m) := by
  unfold triggerLoop at h
  rw [List.mem_flatten] at h
  obtain ⟨l, hl, hm⟩ := h
  rw [List.mem_map] at hl
  obtain ⟨o, ho, rfl⟩ := hl
  exact ⟨o, ho, triggerItem_events env o ev hm⟩

theorem tpslItem_events (env : Env) (o : Order) (ev : Event)
    (h : ev ∈ tpslItem env o) :
    ev = Event.callCancelTriggerOrder o.symbol o.orderId ∨
      ev = Event.printCanceledTpsl o.orderId o.symbol ∨
      ∃ m, ev = Event.printCancelTpslError o.orderId m := by
  unfold tpslItem at h
  revert h
  cases env.cancelTriggerOrder o.symbol o.orderId with
  | ok u =>
    intro h
    rw [List.mem_cons, List.mem_singleton] at h
    exact h.imp id Or.inl
  | error m =>
    intro h
    rw [List.mem_cons, List.mem_singleton] at h
    exact h.imp id (fun h2 => Or.inr ⟨m, h2⟩)

theorem tpslLoop_events (env : Env) (os : List Order) (ev : Event)
    (h : ev ∈ tpslLoop env os) :
    ∃ o, o ∈ os ∧ (ev = Event.callCancelTriggerOrder o.symbol o.orderId ∨
      ev = Event.printCanceledTpsl o.orderId o.symbol ∨
      ∃ m, ev = Event.printCancelTpslError o.orderId m) := by
  unfold tpslLoop at h
  rw [List.mem_flatten] at h
  obtain ⟨l, hl, hm⟩ := h
  rw [List.mem_map] at hl
  obtain ⟨o, ho, rfl⟩ := hl
  exact ⟨o, ho, tpslItem_events env o ev hm⟩

theorem limitItem_events (env : Env) (o : Order) (ev : Event)
    (h : ev ∈ limitItem env o) :
    ev = Event.callCancelLimitOrder o.symbol o.orderId ∨
      ev = Event.printCanceledLimit o.orderId o.symbol ∨
      ∃ m, ev = Event.printCancelLimitError o.orderId m := by
  unfold limitItem at h
  revert h
  cases env.cancelLimitOrder o.symbol o.orderId with
  | ok u =>
    intro h
    rw [List.mem_cons, List.mem_singleton] at h
    exact h.imp id Or.inl
  | error m =>
    intro h
    rw [List.mem_cons, List.mem_singleton] at h
    exact h.imp id (fun h2 => Or.inr ⟨m, h2⟩)

theorem limitLoop_events (env : Env) (os : List Order) (ev : Event)
    (h : ev ∈ limitLoop env os) :
    ∃ o, o ∈ os ∧ (ev = Event.callCancelLimitOrder o.symbol o.orderId ∨
      ev = Event.printCanceledLimit o.orderId o.symbol ∨
      ∃ m, ev = Event.printCancelLimitError o.orderId m) := by
  unfold limitLoop at h
  rw [List.mem_flatten] at h
  obtain ⟨l, hl, hm⟩ := h
  rw [List.mem_map] at hl
  obtain ⟨o, ho, rfl⟩ := hl
  exact ⟨o, ho, limitItem_events env o ev hm⟩

theorem mem_seqStages (a : List Event × Option String)
    (b : Unit → List Event × Option String) (ev : Event)
    (h : ev ∈ (seqStages a b).1) : ev ∈ a.1 ∨ ev ∈ (b ()).1 := by
  unfold seqStages at h
  revert h
  cases a.2 with
  | none =>
    intro h
    exact List.mem_append.mp h
  | some m =>
    intro h
    exact Or.inl h

theorem mem_seqStages_left (a : List Event × Option String)
    (b : Unit → List Event × Option String) (ev : Event)
    (h : ev ∈ a.1) : ev ∈ (seqStages a b).1 := by
  unfold seqStages
  cases a.2 <;> simp [h]

theorem mem_seqStages_right (a : List Event × Option String)
    (b : Unit → List Event × Option String) (ev : Event)
    (ha : a.2 = none) (h : ev ∈ (b ()).1) : ev ∈ (seqStages a b).1 := by
  unfold seqStages
  rw [ha]
  simp [h]

theorem stage2_no_close (env : Env) : Event.callCloseSession ∉ (stage2 env).1 := by
  unfold stage2
  cases env.fetchPositions 0 with
  | error m => simp
  | ok ps =>
    intro h
    rcases List.mem_cons.mp h with h1 | h1
    · simp at h1
    · obtain ⟨p, _, hc⟩ := closeLoop_events env ps _ h1
      rcases hc with h2 | h2 | ⟨m, h2⟩ <;> simp at h2

theorem stage3_no_close (env : Env) : Event.callCloseSession ∉ (stage3 env).1 := by
  unfold stage3
  cases env.fetchTriggerOrders 0 with
  | error m => simp
  | ok os =>
    intro h
    rcases List.mem_cons.mp h with h1 | h1
    · simp at h1
    · obtain ⟨o, _, hc⟩ := triggerLoop_events env os _ h1
      rcases hc with h2 | h2 | ⟨m, h2⟩ <;> simp at h2

theorem stage4_no_close (env : Env) : Event.callCloseSession ∉ (stage4 env).1 := by
  unfold stage4
  cases env.fetchTpslOrders 0 with
  | error m => simp
  | ok os =>
    intro h
    rcases List.mem_cons.mp h with h1 | h1
    · simp at h1
    · obtain ⟨o, _, hc⟩ := tpslLoop_events env os _ h1
      rcases hc with h2 | h2 | ⟨m, h2⟩ <;> simp at h2

theorem stage5_no_close (env : Env) : Event.callCloseSession ∉ (stage5 env).1 := by
  unfold stage5
  cases env.fetchLimitOrders 0 with
  | error m => simp
  | ok os =>
    intro h
    rcases List.mem_cons.mp h with h1 | h1
    · simp at h1
    · obtain ⟨o, _, hc⟩ := limitLoop_events env os _ h1
      rcases hc with h2 | h2 | ⟨m, h2⟩ <;> simp at h2

theorem verifyStage_no_close (env : Env) :
    Event.callCloseSession ∉ (verifyStage env).1 := by
  cases h1 : env.fetchPositions 1 with
  | error m => simp [verifyStage, h1]
  | ok ps =>
    cases h2 : env.fetchTriggerOrders 1 with
    | error m => simp [verifyStage, h1, h2]
    | ok ts =>
      cases h3 : env.fetchTpslOrders 1 with
      | error m => simp [verifyStage, h1, h2, h3]
      | ok os =>
        cases h4 : env.fetchLimitOrders 1 with
        | error m => simp [verifyStage, h1, h2, h3, h4]
        | ok ls =>
          simp [verifyStage, h1, h2, h3, h4]
          refine ⟨?_, ?_⟩ <;> split <;> simp

theorem runBody_no_close (env : Env) : Event.callCloseSession ∉ (runBody env).1 := by
  intro h
  unfold runBody at h
  rcases mem_seqStages _ _ _ h with h | h
  · exact stage2_no_close env h
  rcases mem_seqStages _ _ _ h with h | h
  · exact stage3_no_close env h
  rcases mem_seqStages _ _ _ h with h | h
  · exact stage4_no_close env h
  rcases mem_seqStages _ _ _ h with h | h
  · exact stage5_no_close env h
  exact verifyStage_no_close env h

theorem countClose_append (a b : List Event) :
    countClose (a ++ b) = countClose a + countClose b := by
  induction a with
  | nil => simp [countClose]
  | cons x tl ih =>
    cases x <;> simp [countClose, ih] <;> omega

theorem countClose_eq_zero {l : List Event} (h : Event.callCloseSession ∉ l) :
    countClose l = 0 := by
  induction l with
  | nil => rfl
  | cons x tl ih =>
    rw [List.mem_cons] at h
    push_neg at h
    cases x <;> simp [countClose]
    all_goals first
      | exact ih h.2
      | exact absurd rfl h.1

theorem mainRun_eq (env : Env) (hc : env.credentials = Except.ok ())
    (hlm : env.loadMarkets = Except.ok ()) :
    mainRun env =
      (Event.callLoadMarkets :: ((runBody env).1 ++ [Event.callCloseSession])) ++
        (match (match env.closeSession with
                | Except.error m => some m
                | Except.ok _ => (runBody env).2) with
         | some m => [Event.printTopError m, Event.printCompleted]
         | none => [Event.printCompleted]) := by
  unfold mainRun runWith
  rw [hc, hlm]

theorem countClose_tail (x : Option String) :
    countClose (match x with
      | some m => [Event.printTopError m, Event.printCompleted]
      | none => [Event.printCompleted]) = 0 := by
  cases x <;> rfl

theorem filter_remote_tail (x : Option String) :
    List.filter Event.isRemoteCall (match x with
      | some m => [Event.printTopError m, Event.printCompleted]
      | none => [Event.printCompleted]) = [] := by
  cases x <;> rfl

theorem remoteCalls_mainRun (env : Env) (hc : env.credentials = Except.ok ())
    (hlm : env.loadMarkets = Except.ok ()) :
    remoteCalls (mainRun env) =
      Event.callLoadMarkets ::
        (remoteCalls (runBody env).1 ++ [Event.callCloseSession]) := by
  rw [mainRun_eq env hc hlm]
  unfold remoteCalls
  rw [List.filter_append, filter_remote_tail]
  simp [List.filter_cons, List.filter_append, Event.isRemoteCall]

/-- Claim C3 (amended): on every exit path of a run in which session
acquisition completed — i.e. the market-metadata load of `__aenter__`
succeeded — the session close operation is invoked exactly once and is the
final remote action, including when an exception escapes any of stages 2-6.
(When the metadata load itself raises during acquisition, `__aexit__` never
runs and the close is not invoked; see the counterexample.) -/
theorem session_closed_once (env : Env) (hc : env.credentials = Except.ok ())
    (hlm : env.loadMarkets = Except.ok ()) :
    countClose (mainRun env) = 1 ∧
    (remoteCalls (mainRun env)).getLast? = some Event.callCloseSession := by
  constructor
  · rw [mainRun_eq env hc hlm, countClose_append, countClose_tail]
    show countClose ((runBody env).1 ++ [Event.callCloseSession]) + 0 = 1
    rw [countClose_append, countClose_eq_zero (runBody_no_close env)]
    rfl
  · rw [remoteCalls_mainRun env hc hlm]
    rw [show Event.callLoadMarkets ::
          (remoteCalls (runBody env).1 ++ [Event.callCloseSession]) =
        (Event.callLoadMarkets :: remoteCalls (runBody env).1) ++
          [Event.callCloseSession] from rfl]
    exact List.getLast?_concat _

/-- Environment in which every remote outcome succeeds and every fetch is
empty. -/
def envHappy : Env :=
  ⟨Except.ok (), Except.ok (), Except.ok (),
   fun _ => Except.ok [], fun _ _ => Except.ok (),
   fun _ => Except.ok [], fun _ => Except.ok [], fun _ => Except.ok [],
   fun _ _ => Except.ok (), fun _ _ => Except.ok ()⟩

theorem session_closed_once_witness :
    countClose (mainRun envHappy) = 1 ∧
    (remoteCalls (mainRun envHappy)).getLast? = some Event.callCloseSession :=
  session_closed_once envHappy rfl rfl

/-- Environment in which the market-metadata load raises fatally. -/
def envLoadFail : Env :=
  ⟨Except.ok (), Except.error "load failed", Except.ok (),
   fun _ => Except.ok [], fun _ _ => Except.ok (),
   fun _ => Except.ok [], fun _ => Except.ok [], fun _ => Except.ok [],
   fun _ _ => Except.ok (), fun _ _ => Except.ok ()⟩

/-- Claim C3 counterexample: when market-metadata loading raises during
session acquisition (`__aenter__`), Python never runs `__aexit__`, so the
session close operation is invoked zero times — not once as the claim
states for this exit path. -/
theorem session_not_closed_on_load_failure :
    envLoadFail.loadMarkets = Except.error "load failed" ∧
    mainRun envLoadFail =
      [Event.callLoadMarkets, Event.printTopError "load failed",
       Event.printCompleted] ∧
    countClose (mainRun envLoadFail) = 0 :=
  ⟨rfl, rfl, rfl⟩

theorem mainRun_top_error (env : Env) (hc : env.credentials = Except.ok ())
    (hlm : env.loadMarkets = Except.ok ()) (m : String)
    (hb : (runBody env).2 = some m) :
    ∃ m2, Event.printTopError m2 ∈ mainRun env := by
  rw [mainRun_eq env hc hlm]
  cases hcs : env.closeSession with
  | error m2 => exact ⟨m2, by simp⟩
  | ok u =>
    rw [hb]
    exact ⟨m, by simp⟩

theorem mainRun_close_mem (env : Env) (hc : env.credentials = Except.ok ())
    (hlm : env.loadMarkets = Except.ok ()) :
    Event.callCloseSession ∈ mainRun env := by
  rw [mainRun_eq env hc hlm]
  simp

theorem mainRun_no_verify (env : Env) (hc : env.credentials = Except.ok ())
    (hlm : env.loadMarkets = Except.ok ())
    (hbv : Event.printVerifying ∉ (runBody env).1) :
    Event.printVerifying ∉ mainRun env := by
  rw [mainRun_eq env hc hlm]
  intro h
  rw [List.mem_append] at h
  rcases h with h | h
  · rcases List.mem_cons.mp h with h1 | h1
    · simp at h1
    · rw [List.mem_append] at h1
      rcases h1 with h2 | h2
      · exact hbv h2
      · simp at h2
  · revert h
    cases env.closeSession with
    | error m =>
      intro h
      simp at h
    | ok u =>
      cases (runBody env).2 with
      | some m =>
        intro h
        simp at h
      | none =>
        intro h
        simp at h

theorem runBody_stage2_err (env : Env) (m : String)
    (hp : env.fetchPositions 0 = Except.error m) :
    runBody env = ([Event.callFetchPositions], some m) := by
  simp [runBody, seqStages, stage2, hp]

theorem runBody_stage3_err (env : Env) (ps : List Position) (m : String)
    (hp : env.fetchPositions 0 = Except.ok ps)
    (ht : env.fetchTriggerOrders 0 = Except.error m) :
    runBody env =
      (Event.callFetchPositions ::
        (closeLoop env ps ++ [Event.callFetchTriggerOrders]), some m) := by
  simp [runBody, seqStages, stage2, stage3, hp, ht]

theorem runBody_stage4_err (env : Env) (ps : List Position) (ts : List Order)
    (m : String)
    (hp : env.fetchPositions 0 = Except.ok ps)
    (ht : env.fetchTriggerOrders 0 = Except.ok ts)
    (hts : env.fetchTpslOrders 0 = Except.error m) :
    runBody env =
      (Event.callFetchPositions ::
        (closeLoop env ps ++
          (Event.callFetchTriggerOrders ::
            (triggerLoop env ts ++ [Event.callFetchTpslOrders]))), some m) := by
  simp [runBody, seqStages, stage2, stage3, stage4, hp, ht, hts]

/-- Claim C10 (amended): when the positions, trigger-order, or TP/SL-order
fetch of stages 2-4 fails fatally, the failure surfaces to the run's top
level, which prints a final error report and still releases the session
(via `__aexit__`); the final verification pass, however, is *not*
attempted — the escaping exception skips it. -/
theorem stage_failure_reporting (env : Env) (hc : env.credentials = Except.ok ())
    (hlm : env.loadMarkets = Except.ok ())
    (hfail : (∃ m, env.fetchPositions 0 = Except.error m) ∨
      (∃ m, env.fetchTriggerOrders 0 = Except.error m) ∨
      (∃ m, env.fetchTpslOrders 0 = Except.error m)) :
    (∃ m, Event.printTopError m ∈ mainRun env) ∧
    Event.callCloseSession ∈ mainRun env ∧
    Event.printVerifying ∉ mainRun env := by
  refine ⟨?_, mainRun_close_mem env hc hlm, ?_⟩ <;>
  · cases hp : env.fetchPositions 0 with
    | error m =>
      have hb := runBody_stage2_err env m hp
      first
        | exact mainRun_top_error env hc hlm m (by rw [hb])
        | exact mainRun_no_verify env hc hlm (by rw [hb]; simp)
    | ok ps =>
      cases ht : env.fetchTriggerOrders 0 with
      | error m =>
        have hb := runBody_stage3_err env ps m hp ht
        first
          | exact mainRun_top_error env hc hlm m (by rw [hb])
          | exact mainRun_no_verify env hc hlm (by
              rw [hb]
              intro h
              rcases List.mem_cons.mp h with h1 | h1
              · simp at h1
              · rw [List.mem_append] at h1
                rcases h1 with h2 | h2
                · obtain ⟨p, _, hcs⟩ := closeLoop_events env ps _ h2
                  rcases hcs with h3 | h3 | ⟨mm, h3⟩ <;> simp at h3
                · simp at h2)
      | ok ts =>
        cases hts : env.fetchTpslOrders 0 with
        | error m =>
          have hb := runBody_stage4_err env ps ts m hp ht hts
          first
            | exact mainRun_top_error env hc hlm m (by rw [hb])
            | exact mainRun_no_verify env hc hlm (by
                rw [hb]
                intro h
                rcases List.mem_cons.mp h with h1 | h1
                · simp at h1
                · rw [List.mem_append] at h1
                  rcases h1 with h2 | h2
                  · obtain ⟨p, _, hcs⟩ := closeLoop_events env ps _ h2
                    rcases hcs with h3 | h3 | ⟨mm, h3⟩ <;> simp at h3
                  · rcases List.mem_cons.mp h2 with h3 | h3
                    · simp at h3
                    · rw [List.mem_append] at h3
                      rcases h3 with h4 | h4
                      · obtain ⟨o, _, hcs⟩ := triggerLoop_events env ts _ h4
                        rcases hcs with h5 | h5 | ⟨mm, h5⟩ <;> simp at h5
                      · simp at h4)
        | ok os =>
          exfalso
          rcases hfail with ⟨m, hm⟩ | ⟨m, hm⟩ | ⟨m, hm⟩
          · rw [hp] at hm
            exact Except.noConfusion hm
          · rw [ht] at hm
            exact Except.noConfusion hm
          · rw [hts] at hm
            exact Except.noConfusion hm

/-- Environment in which the stage-2 positions fetch fails fatally. -/
def envStageFail : Env :=
  ⟨Except.ok (), Except.ok (), Except.ok (),
   fun _ => Except.error "fetch failed", fun _ _ => Except.ok (),
   fun _ => Except.ok [], fun _ => Except.ok [], fun _ => Except.ok [],
   fun _ _ => Except.ok (), fun _ _ => Except.ok ()⟩

/-- Claim C10 counterexample: with the stage-2 positions fetch failing
fatally, the run prints the error report and closes the session, but the
final verification pass is never attempted (no `Performing final
verification...` and no verification re-fetches occur). -/
theorem verification_skipped_on_stage_failure :
    envStageFail.fetchPositions 0 = Except.error "fetch failed" ∧
    mainRun envStageFail =
      [Event.callLoadMarkets, Event.callFetchPositions, Event.callCloseSession,
       Event.printTopError "fetch failed", Event.printCompleted] ∧
    Event.printVerifying ∉ mainRun envStageFail ∧
    Event.printTopError "fetch failed" ∈ mainRun envStageFail ∧
    Event.callCloseSession ∈ mainRun envStageFail := by
  have hm : mainRun envStageFail =
      [Event.callLoadMarkets, Event.callFetchPositions, Event.callCloseSession,
       Event.printTopError "fetch failed", Event.printCompleted] := rfl
  refine ⟨rfl, hm, ?_, ?_, ?_⟩ <;> rw [hm] <;> simp

theorem stage_failure_reporting_witness :
    (∃ m, Event.printTopError m ∈ mainRun envStageFail) ∧
    Event.callCloseSession ∈ mainRun envStageFail ∧
    Event.printVerifying ∉ mainRun envStageFail :=
  stage_failure_reporting envStageFail rfl rfl (Or.inl ⟨"fetch failed", rfl⟩)

theorem mem_mainRun_of_body (env : Env) (ev : Event)
    (hc : env.credentials = Except.ok ()) (hlm : env.loadMarkets = Except.ok ())
    (h : ev ∈ (runBody env).1) : ev ∈ mainRun env := by
  rw [mainRun_eq env hc hlm]
  simp [h]

theorem mem_runBody_stage2 (env : Env) (ps : List Position) (ev : Event)
    (hp : env.fetchPositions 0 = Except.ok ps) (h : ev ∈ closeLoop env ps) :
    ev ∈ (runBody env).1 := by
  unfold runBody
  apply mem_seqStages_left
  simp [stage2, hp, h]

theorem mem_runBody_stage4 (env : Env) (ps : List Position) (ts os : List Order)
    (ev : Event)
    (hp : env.fetchPositions 0 = Except.ok ps)
    (ht : env.fetchTriggerOrders 0 = Except.ok ts)
    (ho : env.fetchTpslOrders 0 = Except.ok os)
    (h : ev ∈ tpslLoop env os) : ev ∈ (runBody env).1 := by
  unfold runBody
  apply mem_seqStages_right _ _ _ (by simp [stage2, hp])
  apply mem_seqStages_right _ _ _ (by simp [stage3, ht])
  apply mem_seqStages_left
  simp [stage4, ho, h]

theorem mem_runBody_verify (env : Env) (ps : List Position) (ts os ls : List Order)
    (ev : Event)
    (hp : env.fetchPositions 0 = Except.ok ps)
    (ht : env.fetchTriggerOrders 0 = Except.ok ts)
    (ho : env.fetchTpslOrders 0 = Except.ok os)
    (hl : env.fetchLimitOrders 0 = Except.ok ls)
    (h : ev ∈ (verifyStage env).1) : ev ∈ (runBody env).1 := by
  unfold runBody
  apply mem_seqStages_right _ _ _ (by simp [stage2, hp])
  apply mem_seqStages_right _ _ _ (by simp [stage3, ht])
  apply mem_seqStages_right _ _ _ (by simp [stage4, ho])
  apply mem_seqStages_right _ _ _ (by simp [stage5, hl])
  exact h

/-- Claim C7: every TP/SL order item processed in stage 4 is cancelled
through the trigger-order cancel operation — the trace contains a
`cancel_trigger_order` invocation for each TP/SL item, and no event of the
TP/SL stage is a `cancel_limit_order` invocation. -/
theorem tpsl_cancel_routing (env : Env) (ps : List Position) (ts os : List Order)
    (hc : env.credentials = Except.ok ()) (hlm : env.loadMarkets = Except.ok ())
    (hp : env.fetchPositions 0 = Except.ok ps)
    (ht : env.fetchTriggerOrders 0 = Except.ok ts)
    (ho : env.fetchTpslOrders 0 = Except.ok os) :
    (∀ o ∈ os, Event.callCancelTriggerOrder o.symbol o.orderId ∈ mainRun env) ∧
    (∀ ev ∈ tpslLoop env os, ∀ s oid, ev ≠ Event.callCancelLimitOrder s oid) := by
  constructor
  · intro o hoo
    apply mem_mainRun_of_body env _ hc hlm
    apply mem_runBody_stage4 env ps ts os _ hp ht ho
    unfold tpslLoop
    rw [List.mem_flatten]
    refine ⟨tpslItem env o, List.mem_map.mpr ⟨o, hoo, rfl⟩, ?_⟩
    unfold tpslItem
    exact List.mem_cons_self _ _
  · intro ev hev s oid heq
    obtain ⟨o, _, hcs⟩ := tpslLoop_events env os ev hev
    subst heq
    rcases hcs with h | h | ⟨m, h⟩ <;> simp at h

/-- A TP/SL order used in witnesses. -/
def oT : Order := ⟨"BTCUSDT", "T1", none⟩

/-- Environment with one pending TP/SL order and nothing else. -/
def envTpsl : Env :=
  ⟨Except.ok (), Except.ok (), Except.ok (),
   fun _ => Except.ok [], fun _ _ => Except.ok (),
   fun _ => Except.ok [], fun _ => Except.ok [oT], fun _ => Except.ok [],
   fun _ _ => Except.ok (), fun _ _ => Except.ok ()⟩

theorem tpsl_cancel_routing_witness :
    Event.callCancelTriggerOrder "BTCUSDT" "T1" ∈ mainRun envTpsl ∧
    (∀ ev ∈ tpslLoop envTpsl [oT], ∀ s oid,
      ev ≠ Event.callCancelLimitOrder s oid) := by
  have h := tpsl_cancel_routing envTpsl [] [] [oT] rfl rfl rfl rfl rfl
  exact ⟨h.1 oT (List.mem_singleton.mpr rfl), h.2⟩

theorem mem_closeItem_call (env : Env) (p : Position) :
    Event.callClosePosition p.symbol p.side ∈ closeItem env p := by
  unfold closeItem
  exact List.mem_cons_self _ _

theorem mem_closeLoop_of_item (env : Env) (ps : List Position) (p : Position)
    (ev : Event) (hp : p ∈ ps) (h : ev ∈ closeItem env p) :
    ev ∈ closeLoop env ps := by
  unfold closeLoop
  rw [List.mem_flatten]
  exact ⟨closeItem env p, List.mem_map.mpr ⟨p, hp, rfl⟩, h⟩

theorem closeItem_outcome (env : Env) (p : Position) :
    Event.printClosed p.symbol p.side ∈ closeItem env p ∨
      ∃ m, Event.printCloseError p.symbol m ∈ closeItem env p := by
  unfold closeItem
  cases env.closePosition p.symbol p.side with
  | ok u =>
    left
    simp
  | error m =>
    right
    exact ⟨m, by simp⟩

theorem closeItem_error_mem (env : Env) (p : Position) (m : String)
    (h : env.closePosition p.symbol p.side = Except.error m) :
    Event.printCloseError p.symbol m ∈ closeItem env p := by
  unfold closeItem
  rw [h]
  simp

theorem warn_mem_verify (env : Env) (l : List Position) (ts2 os2 ls2 : List Order)
    (hp2 : env.fetchPositions 1 = Except.ok l)
    (ht2 : env.fetchTriggerOrders 1 = Except.ok ts2)
    (ho2 : env.fetchTpslOrders 1 = Except.ok os2)
    (hl2 : env.fetchLimitOrders 1 = Except.ok ls2)
    (hne : l ≠ []) :
    Event.warnPositionsOpen l ∈ (verifyStage env).1 := by
  have hie : l.isEmpty = false := by
    cases l with
    | nil => exact absurd rfl hne
    | cons x tl => rfl
  simp [verifyStage, hp2, ht2, ho2, hl2, hie]

/-- Claim C2: with three open positions where closing the second raises a
non-rate-limit (hence fatal-wrapped) error, the orchestrator still attempts
the close of the first and third positions and reports an outcome for each,
prints the per-item error for the second, and — provided the run reaches the
final verification — the final report lists the still-open positions
returned by the verification re-fetch, the second among them. -/
theorem orchestrator_isolates_position_failure (env : Env)
    (p1 p2 p3 : Position) (m : String) (ts os ls : List Order)
    (l : List Position) (ts2 os2 ls2 : List Order)
    (hc : env.credentials = Except.ok ()) (hlm : env.loadMarkets = Except.ok ())
    (hp : env.fetchPositions 0 = Except.ok [p1, p2, p3])
    (h2 : env.closePosition p2.symbol p2.side = Except.error m)
    (ht : env.fetchTriggerOrders 0 = Except.ok ts)
    (ho : env.fetchTpslOrders 0 = Except.ok os)
    (hl : env.fetchLimitOrders 0 = Except.ok ls)
    (hp2 : env.fetchPositions 1 = Except.ok l) (hmem : p2 ∈ l)
    (ht2 : env.fetchTriggerOrders 1 = Except.ok ts2)
    (ho2 : env.fetchTpslOrders 1 = Except.ok os2)
    (hl2 : env.fetchLimitOrders 1 = Except.ok ls2) :
    Event.callClosePosition p1.symbol p1.side ∈ mainRun env ∧
    Event.callClosePosition p2.symbol p2.side ∈ mainRun env ∧
    Event.callClosePosition p3.symbol p3.side ∈ mainRun env ∧
    reportsOutcomeFor (mainRun env) p1 ∧
    Event.printCloseError p2.symbol m ∈ mainRun env ∧
    reportsOutcomeFor (mainRun env) p3 ∧
    Event.warnPositionsOpen l ∈ mainRun env := by
  have lift : ∀ p ∈ [p1, p2, p3], ∀ ev ∈ closeItem env p, ev ∈ mainRun env := by
    intro p hpm ev hev
    exact mem_mainRun_of_body env ev hc hlm
      (mem_runBody_stage2 env _ ev hp (mem_closeLoop_of_item env _ p ev hpm hev))
  have report : ∀ p ∈ [p1, p2, p3], reportsOutcomeFor (mainRun env) p := by
    intro p hpm
    rcases closeItem_outcome env p with h | ⟨mm, h⟩
    · exact Or.inl (lift p hpm _ h)
    · exact Or.inr ⟨mm, lift p hpm _ h⟩
  refine ⟨lift p1 (by simp) _ (mem_closeItem_call env p1),
    lift p2 (by simp) _ (mem_closeItem_call env p2),
    lift p3 (by simp) _ (mem_closeItem_call env p3),
    report p1 (by simp), ?_, report p3 (by simp), ?_⟩
  · exact lift p2 (by simp) _ (closeItem_error_mem env p2 m h2)
  · exact mem_mainRun_of_body env _ hc hlm
      (mem_runBody_verify env _ ts os ls _ hp ht ho hl
        (warn_mem_verify env l ts2 os2 ls2 hp2 ht2 ho2 hl2
          (List.ne_nil_of_mem hmem)))

def pA : Position := ⟨"AAAUSDT", "long", some 1⟩

def pB : Position := ⟨"BBBUSDT", "short", some 2⟩

def pC : Position := ⟨"CCCUSDT", "long", some 3⟩

/-- Environment with three open positions where closing the second fails
with a non-rate-limit error, and whose verification re-fetch still reports
the second position open. -/
def envC2 : Env :=
  ⟨Except.ok (), Except.ok (), Except.ok (),
   fun i => if i = 0 then Except.ok [pA, pB, pC] else Except.ok [pB],
   fun s _ => if s = "BBBUSDT" then Except.error "boom" else Except.ok (),
   fun _ => Except.ok [], fun _ => Except.ok [], fun _ => Except.ok [],
   fun _ _ => Except.ok (), fun _ _ => Except.ok ()⟩

theorem orchestrator_isolates_position_failure_witness :
    Event.callClosePosition "AAAUSDT" "long" ∈ mainRun envC2 ∧
    Event.callClosePosition "BBBUSDT" "short" ∈ mainRun envC2 ∧
    Event.callClosePosition "CCCUSDT" "long" ∈ mainRun envC2 ∧
    reportsOutcomeFor (mainRun envC2) pA ∧
    Event.printCloseError "BBBUSDT" "boom" ∈ mainRun envC2 ∧
    reportsOutcomeFor (mainRun envC2) pC ∧
    Event.warnPositionsOpen [pB] ∈ mainRun envC2 :=
  orchestrator_isolates_position_failure envC2 pA pB pC "boom" [] [] [] [pB]
    [] [] [] rfl rfl rfl rfl rfl rfl rfl rfl (List.mem_singleton.mpr rfl)
    rfl rfl rfl
